import Mathlib

/-
  Verification of the tree-filter engine of MMcreateNewBuild.py.

  The script walks a Kodi directory with os.walk, prunes the root to the
  top-level directories named in dirs_to_keep, drops files found directly at
  the root, and for every remaining file checks the exclusion patterns with
  fnmatch, then stats the file (an OSError drops it), then compares the size
  with the skip_large threshold, and finally appends the relative POSIX path
  to included_files and, in a normal run, writes the file into the zip.

  The embedding below renders that walk as pure functions over an explicit
  tree value.  File sizes are Option Nat: none models a stat call that
  raises OSError.  The skip_large argument is Int, matching the Python int
  accepted by argparse (negative values are possible).
-/

namespace KodiBuild

/-- Shell-style glob matching on character lists, the semantics of
Python fnmatch.fnmatch on a case-sensitive filesystem: the star matches any
run of characters, including the path separator, the question mark matches
one character, every other character matches itself, and the whole string
must be consumed. -/
def globMatch : List Char → List Char → Bool
  | [], s => s.isEmpty
  | '*' :: p, s => (s.tails).any (fun s2 => globMatch p s2)
  | '?' :: p, s =>
    match s with
    | [] => false
    | _ :: s2 => globMatch p s2
  | c :: p, s =>
    match s with
    | [] => false
    | c2 :: s2 => c == c2 && globMatch p s2

/-- Embedding of fnmatch.fnmatch(name, pat) as used by should_exclude; on a
POSIX host os.path.normcase is the identity, so the call is pure
case-sensitive glob matching of the whole relative path. -/
def fnmatch (name pat : String) : Bool := globMatch pat.data name.data

/-- The EXCLUDE_PATTERNS list of MMcreateNewBuild.py, verbatim. -/
def EXCLUDE_PATTERNS : List String := [
  "addons/packages/*",
  "userdata/Thumbnails/*",
  "userdata/Database/Textures13.db",
  "temp/*",
  "cache/*",
  "logs/*",
  "*.log",
  "*.cache",
  "kodi.old.log"
]

/-- Embedding of should_exclude: a relative POSIX path is excluded when it
matches any pattern of EXCLUDE_PATTERNS. -/
def should_exclude (rel_posix : String) : Bool :=
  EXCLUDE_PATTERNS.any (fun pattern => fnmatch rel_posix pattern)

/-- A file inside one of the top-level directories: its POSIX path below
that directory, and its size, where none models a stat call raising
OSError (permission error, broken symlink). -/
structure FSFile where
  path : String
  size : Option Nat
deriving DecidableEq

/-- A top-level directory of the Kodi folder together with the files of its
whole subtree, each with its path below the directory, listed in the order
os.walk reaches them. -/
structure TopDir where
  name : String
  files : List FSFile
deriving DecidableEq

/-- The Kodi source tree as seen by os.walk: the files sitting directly at
the root, and the top-level directories. -/
structure KodiTree where
  rootFiles : List FSFile
  dirs : List TopDir
deriving DecidableEq

/-- The dirs_to_keep list used when pruning the walk at the root. -/
def dirs_to_keep : List String := ["userdata", "addons"]

/-- The accumulators of the walk: included_files, the Skipped Large lines
printed while walking, and the entries written into the zip. -/
structure BuildAcc where
  included : List String
  oversizedLogged : List (String × Nat)
  archived : List String
deriving DecidableEq

/-- The body of the inner file loop of make_build for one file of a kept
top-level directory: build the relative path, test should_exclude, stat the
file, test the skip_large threshold, and otherwise append the path to
included_files and, unless dry_run, write it into the zip.  The Skipped
Large line is printed only when dry_run is set, exactly as in the source. -/
def stepFile (skip_large : Int) (dry_run : Bool) (dname : String)
    (st : BuildAcc) (f : FSFile) : BuildAcc :=
  let rel := dname ++ "/" ++ f.path
  if should_exclude rel then st
  else
    match f.size with
    | none => st
    | some sz =>
      if skip_large > 0 ∧ (sz : Int) > skip_large then
        if dry_run then
          { st with oversizedLogged := st.oversizedLogged ++ [(rel, sz)] }
        else st
      else
        { st with
            included := st.included ++ [rel],
            archived := if dry_run then st.archived else st.archived ++ [rel] }

/-- Processing of one kept top-level directory: the file loop over its
subtree. -/
def walkDir (skip_large : Int) (dry_run : Bool) (st : BuildAcc)
    (d : TopDir) : BuildAcc :=
  d.files.foldl (stepFile skip_large dry_run d.name) st

/-- The walk of make_build after the root step: the root iteration prunes
dirs in place to those named in dirs_to_keep and empties the file list of
the root, so the remaining iterations process exactly the kept top-level
directories. -/
def make_build_core (skip_large : Int) (dry_run : Bool) (t : KodiTree) : BuildAcc :=
  (t.dirs.filter (fun d => dirs_to_keep.contains d.name)).foldl
    (walkDir skip_large dry_run) ⟨[], [], []⟩

/-- Observable outcome of one invocation of make_build: the process exit
code, whether the output directory was created, whether a zip file remains
on disk at the end, whether an exception propagated out of make_build to
its caller, whether an error message was printed, and the accumulators. -/
structure RunOutcome where
  exitCode : Nat
  outDirCreated : Bool
  zipOnDisk : Bool
  excToCaller : Bool
  errorPrinted : Bool
  included : List String
  oversizedLogged : List (String × Nat)
  archived : List String
deriving DecidableEq

/-- One entry of the flattened walk: the top-level directory name and a
file below it. -/
def procEntry (skip_large : Int) (dry_run : Bool) (st : BuildAcc)
    (e : String × FSFile) : BuildAcc :=
  stepFile skip_large dry_run e.1 st e.2

/-- The walk as a fold over a flat list of entries. -/
def runEntries (skip_large : Int) (dry_run : Bool) (st : BuildAcc)
    (es : List (String × FSFile)) : BuildAcc :=
  es.foldl (procEntry skip_large dry_run) st

/-- The flat list of entries the pruned walk visits, in order. -/
def walkEntries (t : KodiTree) : List (String × FSFile) :=
  (t.dirs.filter (fun d => dirs_to_keep.contains d.name)).flatMap
    (fun d => d.files.map (fun f => (d.name, f)))

/-- Embedding of make_build.  kodiIsDir is the result of the is_dir check
on the --kodi path; failAt models an exception raised in the walk and
write phase after that many entries were processed (none when no exception
occurs).  On the failure path the except branch of the source closes the
zip, unlinks it when it exists and the run is not a dry run, prints the
error, and falls through: the function returns normally, nothing
propagates, and the process exit code is 0.  Only the missing-directory
check calls sys.exit(1). -/
def make_build (kodiIsDir : Bool) (t : KodiTree) (skip_large : Int)
    (dry_run : Bool) (failAt : Option Nat) : RunOutcome :=
  if kodiIsDir = false then
    { exitCode := 1, outDirCreated := false, zipOnDisk := false,
      excToCaller := false, errorPrinted := true,
      included := [], oversizedLogged := [], archived := [] }
  else
    match failAt with
    | some n =>
      let acc := runEntries skip_large dry_run ⟨[], [], []⟩ ((walkEntries t).take n)
      { exitCode := 0, outDirCreated := true, zipOnDisk := false,
        excToCaller := false, errorPrinted := true,
        included := acc.included, oversizedLogged := acc.oversizedLogged,
        archived := [] }
    | none =>
      let acc := make_build_core skip_large dry_run t
      { exitCode := 0, outDirCreated := true, zipOnDisk := !dry_run,
        excToCaller := false, errorPrinted := false,
        included := acc.included, oversizedLogged := acc.oversizedLogged,
        archived := acc.archived }

/-- The relative POSIX path of a walk entry. -/
def relEntry (e : String × FSFile) : String := e.1 ++ "/" ++ e.2.path

/-- Contribution of one walk entry to included_files. -/
def incOf (skip_large : Int) (e : String × FSFile) : List String :=
  if should_exclude (relEntry e) then []
  else
    match e.2.size with
    | none => []
    | some sz =>
      if skip_large > 0 ∧ (sz : Int) > skip_large then [] else [relEntry e]

/-- Contribution of one walk entry to the Skipped Large lines. -/
def ovOf (skip_large : Int) (dry_run : Bool) (e : String × FSFile) :
    List (String × Nat) :=
  if should_exclude (relEntry e) then []
  else
    match e.2.size with
    | none => []
    | some sz =>
      if skip_large > 0 ∧ (sz : Int) > skip_large then
        if dry_run then [(relEntry e, sz)] else []
      else []

/-- Contribution of one walk entry to the zip content. -/
def arOf (skip_large : Int) (dry_run : Bool) (e : String × FSFile) :
    List String :=
  if dry_run then [] else incOf skip_large e

theorem stepFile_eq (skip_large : Int) (dry_run : Bool) (dname : String)
    (st : BuildAcc) (f : FSFile) :
    stepFile skip_large dry_run dname st f =
      { included := st.included ++ incOf skip_large (dname, f),
        oversizedLogged :=
          st.oversizedLogged ++ ovOf skip_large dry_run (dname, f),
        archived := st.archived ++ arOf skip_large dry_run (dname, f) } := by
  cases st with
  | mk inc ov ar =>
    by_cases hx : should_exclude (dname ++ "/" ++ f.path) = true
    · simp [stepFile, incOf, ovOf, arOf, relEntry, hx]
    · cases hsz : f.size with
      | none => simp [stepFile, incOf, ovOf, arOf, relEntry, hx, hsz]
      | some sz =>
        by_cases hbig : skip_large > 0 ∧ (sz : Int) > skip_large
        · cases dry_run <;>
            simp [stepFile, incOf, ovOf, arOf, relEntry, hx, hsz, hbig]
        · cases dry_run <;>
            simp [stepFile, incOf, ovOf, arOf, relEntry, hx, hsz, hbig]

theorem runEntries_eq (skip_large : Int) (dry_run : Bool) (st : BuildAcc)
    (es : List (String × FSFile)) :
    runEntries skip_large dry_run st es =
      { included := st.included ++ es.flatMap (incOf skip_large),
        oversizedLogged :=
          st.oversizedLogged ++ es.flatMap (ovOf skip_large dry_run),
        archived := st.archived ++ es.flatMap (arOf skip_large dry_run) } := by
  induction es generalizing st with
  | nil =>
    cases st
    simp [runEntries]
  | cons e es ih =>
    cases st with
    | mk inc ov ar =>
      have hstep : runEntries skip_large dry_run ⟨inc, ov, ar⟩ (e :: es) =
          runEntries skip_large dry_run
            (procEntry skip_large dry_run ⟨inc, ov, ar⟩ e) es := rfl
      rw [hstep]
      cases e with
      | mk dname f =>
        rw [show procEntry skip_large dry_run ⟨inc, ov, ar⟩ (dname, f) =
              stepFile skip_large dry_run dname ⟨inc, ov, ar⟩ f from rfl,
            stepFile_eq, ih]
        simp

theorem runEntries_append (skip_large : Int) (dry_run : Bool) (st : BuildAcc)
    (xs ys : List (String × FSFile)) :
    runEntries skip_large dry_run st (xs ++ ys) =
      runEntries skip_large dry_run (runEntries skip_large dry_run st xs) ys :=
  List.foldl_append (procEntry skip_large dry_run) st xs ys

theorem walkDir_eq (skip_large : Int) (dry_run : Bool) (st : BuildAcc)
    (d : TopDir) :
    walkDir skip_large dry_run st d =
      runEntries skip_large dry_run st (d.files.map (fun f => (d.name, f))) := by
  unfold walkDir runEntries
  rw [List.foldl_map]
  rfl

theorem foldl_walkDir_eq (skip_large : Int) (dry_run : Bool)
    (ds : List TopDir) (st : BuildAcc) :
    ds.foldl (walkDir skip_large dry_run) st =
      runEntries skip_large dry_run st
        (ds.flatMap (fun d => d.files.map (fun f => (d.name, f)))) := by
  induction ds generalizing st with
  | nil => simp [runEntries]
  | cons d ds ih =>
    rw [List.foldl_cons, List.flatMap_cons, runEntries_append, walkDir_eq, ih]

theorem make_build_core_eq (skip_large : Int) (dry_run : Bool) (t : KodiTree) :
    make_build_core skip_large dry_run t =
      runEntries skip_large dry_run ⟨[], [], []⟩ (walkEntries t) := by
  unfold make_build_core walkEntries
  exact foldl_walkDir_eq skip_large dry_run _ _

theorem mem_incOf (skip_large : Int) (rel : String) (e : String × FSFile) :
    rel ∈ incOf skip_large e ↔
      rel = relEntry e ∧ should_exclude (relEntry e) = false ∧
        ∃ sz, e.2.size = some sz ∧ ¬(skip_large > 0 ∧ (sz : Int) > skip_large) := by
  unfold incOf
  cases hx : should_exclude (relEntry e) with
  | true => simp
  | false =>
    cases hsz : e.2.size with
    | none => simp
    | some sz =>
      by_cases hbig : skip_large > 0 ∧ (sz : Int) > skip_large
      · simp [hbig]
      · simp [hbig]
        intros
        omega

theorem mem_ovOf (skip_large : Int) (dry_run : Bool) (rel : String) (sz0 : Nat)
    (e : String × FSFile) :
    (rel, sz0) ∈ ovOf skip_large dry_run e ↔
      dry_run = true ∧ rel = relEntry e ∧
        should_exclude (relEntry e) = false ∧ e.2.size = some sz0 ∧
        skip_large > 0 ∧ (sz0 : Int) > skip_large := by
  unfold ovOf
  cases hx : should_exclude (relEntry e) with
  | true => simp
  | false =>
    cases hsz : e.2.size with
    | none => simp
    | some sz =>
      by_cases hbig : skip_large > 0 ∧ (sz : Int) > skip_large
      · cases hdry : dry_run with
        | false => simp [hbig]
        | true =>
          simp [hbig]
          intros
          omega
      · cases hdry : dry_run with
        | false => simp [hbig]
        | true =>
          simp [hbig]
          intros
          omega

theorem mem_walkEntries (t : KodiTree) (e : String × FSFile) :
    e ∈ walkEntries t ↔
      ∃ d, d ∈ t.dirs ∧ dirs_to_keep.contains d.name = true ∧
        ∃ f, f ∈ d.files ∧ e = (d.name, f) := by
  simp only [walkEntries, List.mem_flatMap, List.mem_filter, List.mem_map]
  constructor
  · rintro ⟨d, ⟨hd, hk⟩, f, hf, rfl⟩
    exact ⟨d, hd, hk, f, hf, rfl⟩
  · rintro ⟨d, hd, hk, f, hf, rfl⟩
    exact ⟨d, ⟨hd, hk⟩, f, hf, rfl⟩

theorem mem_included_core (skip_large : Int) (dry_run : Bool) (t : KodiTree)
    (rel : String) :
    rel ∈ (make_build_core skip_large dry_run t).included ↔
      ∃ d, d ∈ t.dirs ∧ dirs_to_keep.contains d.name = true ∧
        ∃ f, f ∈ d.files ∧ rel = d.name ++ "/" ++ f.path ∧
          should_exclude rel = false ∧
          ∃ sz, f.size = some sz ∧ ¬(skip_large > 0 ∧ (sz : Int) > skip_large) := by
  rw [make_build_core_eq, runEntries_eq]
  simp only [List.nil_append, List.mem_flatMap]
  constructor
  · rintro ⟨e, he, hin⟩
    obtain ⟨d, hd, hk, f, hf, rfl⟩ := (mem_walkEntries t e).mp he
    obtain ⟨hrel, hex, sz, hsz, hbig⟩ := (mem_incOf skip_large rel _).mp hin
    refine ⟨d, hd, hk, f, hf, ?_, ?_, sz, hsz, hbig⟩
    · simpa [relEntry] using hrel
    · subst hrel
      exact hex
  · rintro ⟨d, hd, hk, f, hf, hrel, hex, sz, hsz, hbig⟩
    refine ⟨(d.name, f), (mem_walkEntries t _).mpr ⟨d, hd, hk, f, hf, rfl⟩, ?_⟩
    refine (mem_incOf skip_large rel _).mpr ⟨?_, ?_, sz, hsz, hbig⟩
    · simpa [relEntry] using hrel
    · subst hrel
      simpa [relEntry] using hex

theorem mem_oversized_core (skip_large : Int) (dry_run : Bool) (t : KodiTree)
    (rel : String) (sz0 : Nat) :
    (rel, sz0) ∈ (make_build_core skip_large dry_run t).oversizedLogged ↔
      dry_run = true ∧
        ∃ d, d ∈ t.dirs ∧ dirs_to_keep.contains d.name = true ∧
          ∃ f, f ∈ d.files ∧ rel = d.name ++ "/" ++ f.path ∧
            should_exclude rel = false ∧ f.size = some sz0 ∧
            skip_large > 0 ∧ (sz0 : Int) > skip_large := by
  rw [make_build_core_eq, runEntries_eq]
  simp only [List.nil_append, List.mem_flatMap]
  constructor
  · rintro ⟨e, he, hin⟩
    obtain ⟨d, hd, hk, f, hf, rfl⟩ := (mem_walkEntries t e).mp he
    obtain ⟨hdry, hrel, hex, hsz, hpos, hgt⟩ :=
      (mem_ovOf skip_large dry_run rel sz0 _).mp hin
    refine ⟨hdry, d, hd, hk, f, hf, ?_, ?_, hsz, hpos, hgt⟩
    · simpa [relEntry] using hrel
    · subst hrel
      exact hex
  · rintro ⟨hdry, d, hd, hk, f, hf, hrel, hex, hsz, hpos, hgt⟩
    refine ⟨(d.name, f), (mem_walkEntries t _).mpr ⟨d, hd, hk, f, hf, rfl⟩, ?_⟩
    refine (mem_ovOf skip_large dry_run rel sz0 _).mpr ⟨hdry, ?_, ?_, hsz, hpos, hgt⟩
    · simpa [relEntry] using hrel
    · subst hrel
      simpa [relEntry] using hex

theorem flatMap_nil_of {α β : Type} (g : α → List β) (es : List α)
    (h : ∀ e, g e = []) : es.flatMap g = [] := by
  induction es with
  | nil => rfl
  | cons e es ih => simp [List.flatMap_cons, h e, ih]

theorem ovOf_eq_nil_of_nonpos (skip_large : Int) (dry_run : Bool)
    (e : String × FSFile) (h : skip_large ≤ 0) :
    ovOf skip_large dry_run e = [] := by
  unfold ovOf
  split
  · rfl
  · cases e.2.size with
    | none => rfl
    | some sz =>
      simp only []
      rw [if_neg]
      rintro ⟨hpos, -⟩
      omega

theorem ovOf_eq_nil_of_not_dry (skip_large : Int) (e : String × FSFile) :
    ovOf skip_large false e = [] := by
  unfold ovOf
  split
  · rfl
  · cases e.2.size with
    | none => rfl
    | some sz =>
      simp only []
      split
      · rfl
      · rfl

theorem arOf_eq_nil_of_dry (skip_large : Int) (e : String × FSFile) :
    arOf skip_large true e = [] := rfl

theorem incOf_size_none (skip_large : Int) (dname p : String) :
    incOf skip_large (dname, ⟨p, none⟩) = [] := by
  unfold incOf
  split
  · rfl
  · rfl

theorem ovOf_size_none (skip_large : Int) (dry_run : Bool) (dname p : String) :
    ovOf skip_large dry_run (dname, ⟨p, none⟩) = [] := by
  unfold ovOf
  split
  · rfl
  · rfl

theorem arOf_size_none (skip_large : Int) (dry_run : Bool) (dname p : String) :
    arOf skip_large dry_run (dname, ⟨p, none⟩) = [] := by
  unfold arOf
  split
  · rfl
  · exact incOf_size_none skip_large dname p

theorem make_build_none_eq (t : KodiTree) (skip_large : Int) (dry_run : Bool) :
    make_build true t skip_large dry_run none =
      { exitCode := 0, outDirCreated := true, zipOnDisk := !dry_run,
        excToCaller := false, errorPrinted := false,
        included := (make_build_core skip_large dry_run t).included,
        oversizedLogged := (make_build_core skip_large dry_run t).oversizedLogged,
        archived := (make_build_core skip_large dry_run t).archived } := rfl

theorem make_build_some_eq (t : KodiTree) (skip_large : Int) (dry_run : Bool)
    (n : Nat) :
    make_build true t skip_large dry_run (some n) =
      { exitCode := 0, outDirCreated := true, zipOnDisk := false,
        excToCaller := false, errorPrinted := true,
        included := (runEntries skip_large dry_run ⟨[], [], []⟩
          ((walkEntries t).take n)).included,
        oversizedLogged := (runEntries skip_large dry_run ⟨[], [], []⟩
          ((walkEntries t).take n)).oversizedLogged,
        archived := [] } := rfl

theorem included_not_excluded (skip_large : Int) (dry_run : Bool)
    (es : List (String × FSFile)) (rel : String)
    (hmem : rel ∈ (runEntries skip_large dry_run ⟨[], [], []⟩ es).included) :
    should_exclude rel = false := by
  rw [runEntries_eq] at hmem
  simp only [List.nil_append, List.mem_flatMap] at hmem
  obtain ⟨e, -, hin⟩ := hmem
  obtain ⟨hrel, hex, -⟩ := (mem_incOf skip_large rel e).mp hin
  rw [← hrel] at hex
  exact hex

theorem oversized_empty_of_nonpos (skip_large : Int) (dry_run : Bool)
    (t : KodiTree) (h : skip_large ≤ 0) :
    (make_build true t skip_large dry_run none).oversizedLogged = [] := by
  rw [make_build_none_eq]
  rw [make_build_core_eq, runEntries_eq]
  simp only [List.nil_append]
  exact flatMap_nil_of _ _ (fun e => ovOf_eq_nil_of_nonpos skip_large dry_run e h)

theorem included_no_ceiling (skip_large : Int) (dry_run : Bool) (t : KodiTree)
    (h : skip_large ≤ 0) (rel : String) :
    rel ∈ (make_build true t skip_large dry_run none).included ↔
      ∃ d, d ∈ t.dirs ∧ dirs_to_keep.contains d.name = true ∧
        ∃ f, f ∈ d.files ∧ rel = d.name ++ "/" ++ f.path ∧
          should_exclude rel = false ∧ ∃ sz, f.size = some sz := by
  rw [make_build_none_eq]
  simp only []
  rw [mem_included_core]
  constructor
  · rintro ⟨d, hd, hk, f, hf, hrel, hex, sz, hsz, -⟩
    exact ⟨d, hd, hk, f, hf, hrel, hex, sz, hsz⟩
  · rintro ⟨d, hd, hk, f, hf, hrel, hex, sz, hsz⟩
    refine ⟨d, hd, hk, f, hf, hrel, hex, sz, hsz, ?_⟩
    rintro ⟨hpos, -⟩
    omega

theorem stepFile_size_none (skip_large : Int) (dry_run : Bool) (dn p : String)
    (st : BuildAcc) : stepFile skip_large dry_run dn st ⟨p, none⟩ = st := by
  unfold stepFile
  split
  next => simp
  next sz heq => simp at heq

theorem runEntries_ignore_none (skip_large : Int) (dry_run : Bool)
    (st : BuildAcc) (u v : List (String × FSFile)) (dn p : String) :
    runEntries skip_large dry_run st (u ++ (dn, ⟨p, none⟩) :: v) =
      runEntries skip_large dry_run st (u ++ v) := by
  have h1 : runEntries skip_large dry_run st (u ++ (dn, ⟨p, none⟩) :: v) =
      runEntries skip_large dry_run
        (stepFile skip_large dry_run dn
          (runEntries skip_large dry_run st u) ⟨p, none⟩) v := by
    rw [runEntries_append]
    rfl
  rw [h1, stepFile_size_none, runEntries_append]

theorem oversized_empty_of_not_dry (skip_large : Int) (t : KodiTree) :
    (make_build true t skip_large false none).oversizedLogged = [] := by
  show (make_build_core skip_large false t).oversizedLogged = []
  rw [make_build_core_eq, runEntries_eq]
  simp only [List.nil_append]
  exact flatMap_nil_of _ _ (fun e => ovOf_eq_nil_of_not_dry skip_large e)

theorem runEntries_cons_none (skip_large : Int) (dry_run : Bool)
    (st : BuildAcc) (v : List (String × FSFile)) (dn p : String) :
    runEntries skip_large dry_run st ((dn, ⟨p, none⟩) :: v) =
      runEntries skip_large dry_run st v := by
  show runEntries skip_large dry_run
      (procEntry skip_large dry_run st (dn, ⟨p, none⟩)) v = _
  rw [show procEntry skip_large dry_run st (dn, ⟨p, none⟩) =
        stepFile skip_large dry_run dn st ⟨p, none⟩ from rfl,
      stepFile_size_none]

theorem walkEntries_congr (rf1 rf2 : List FSFile) (ds1 ds2 : List TopDir)
    (h : ds1.filter (fun d => dirs_to_keep.contains d.name) =
         ds2.filter (fun d => dirs_to_keep.contains d.name)) :
    walkEntries ⟨rf1, ds1⟩ = walkEntries ⟨rf2, ds2⟩ := by
  show (ds1.filter (fun d => dirs_to_keep.contains d.name)).flatMap
      (fun d => d.files.map (fun f => (d.name, f))) =
    (ds2.filter (fun d => dirs_to_keep.contains d.name)).flatMap
      (fun d => d.files.map (fun f => (d.name, f)))
  rw [h]

/-- C1: in a completed run on an existing source directory, a relative path
is in the inclusion result iff some kept top-level directory (userdata or
addons) contains the file, the relative POSIX path matches no exclusion
pattern, the size could be read, and the size is within the skip_large
ceiling or the ceiling is disabled; files whose stat fails are silently
dropped and the run still completes. -/
theorem claim_C1_inclusion_invariant (t : KodiTree) (skip_large : Int)
    (dry_run : Bool) (rel : String) :
    rel ∈ (make_build true t skip_large dry_run none).included ↔
      ∃ d, d ∈ t.dirs ∧ dirs_to_keep.contains d.name = true ∧
        ∃ f, f ∈ d.files ∧ rel = d.name ++ "/" ++ f.path ∧
          should_exclude rel = false ∧
          ∃ sz, f.size = some sz ∧
            (skip_large ≤ 0 ∨ (sz : Int) ≤ skip_large) := by
  show rel ∈ (make_build_core skip_large dry_run t).included ↔ _
  rw [mem_included_core]
  constructor
  · rintro ⟨d, hd, hk, f, hf, hrel, hex, sz, hsz, hbig⟩
    exact ⟨d, hd, hk, f, hf, hrel, hex, sz, hsz, by omega⟩
  · rintro ⟨d, hd, hk, f, hf, hrel, hex, sz, hsz, hbig⟩
    exact ⟨d, hd, hk, f, hf, hrel, hex, sz, hsz, by omega⟩

/-- C2 counterexample: in a normal (non preview) run with ceiling 10, a
file of size 15 is indeed absent from the result, but no oversized-skip
record exists at all, refuting the claim that every run records skipped
oversized files with their size in a skip list. -/
theorem claim_C2_counterexample :
    ¬ ( "userdata/huge.bin" ∉
          (make_build true ⟨[], [⟨"userdata", [⟨"huge.bin", some 15⟩]⟩]⟩ 10
            false none).included ∧
        ("userdata/huge.bin", 15) ∈
          (make_build true ⟨[], [⟨"userdata", [⟨"huge.bin", some 15⟩]⟩]⟩ 10
            false none).oversizedLogged ) := by decide

/-- C2 amended: with a positive ceiling, an oversized statable file below a
kept top-level directory whose path is excluded by no pattern (and whose
relative path no other file of the tree shares) is absent from the
inclusion result; its path and exact size are reported in the oversized
lines only when the run is a preview (dry run), and a normal run keeps no
record of oversized skips at all. -/
theorem claim_C2_oversized_handling (t : KodiTree) (skip_large : Int)
    (dry_run : Bool) (d : TopDir) (f : FSFile) (sz : Nat)
    (hd : d ∈ t.dirs) (hk : dirs_to_keep.contains d.name = true)
    (hf : f ∈ d.files) (hs : f.size = some sz)
    (hx : should_exclude (d.name ++ "/" ++ f.path) = false)
    (huniq : ∀ d2, d2 ∈ t.dirs → ∀ f2, f2 ∈ d2.files →
      d2.name ++ "/" ++ f2.path = d.name ++ "/" ++ f.path → d2 = d ∧ f2 = f)
    (hpos : 0 < skip_large) (hbig : skip_large < (sz : Int)) :
    (d.name ++ "/" ++ f.path) ∉
        (make_build true t skip_large dry_run none).included ∧
    (dry_run = true →
      (d.name ++ "/" ++ f.path, sz) ∈
        (make_build true t skip_large dry_run none).oversizedLogged) ∧
    (dry_run = false →
      (make_build true t skip_large dry_run none).oversizedLogged = []) := by
  refine ⟨?_, ?_, ?_⟩
  · intro hmem
    rw [show (make_build true t skip_large dry_run none).included =
          (make_build_core skip_large dry_run t).included from rfl,
        mem_included_core] at hmem
    obtain ⟨d2, hd2, hk2, f2, hf2, hrel2, hex2, sz2, hsz2, hbig2⟩ := hmem
    obtain ⟨rfl, rfl⟩ := huniq d2 hd2 f2 hf2 hrel2.symm
    rw [hs] at hsz2
    injection hsz2 with hsz2
    subst hsz2
    exact hbig2 ⟨hpos, hbig⟩
  · intro hdry
    subst hdry
    rw [show (make_build true t skip_large true none).oversizedLogged =
          (make_build_core skip_large true t).oversizedLogged from rfl,
        mem_oversized_core]
    exact ⟨rfl, d, hd, hk, f, hf, rfl, hx, hs, hpos, hbig⟩
  · intro hdry
    subst hdry
    exact oversized_empty_of_not_dry skip_large t

/-- C2 witness: a concrete preview run with ceiling 10 and one file of size
15 in userdata. -/
theorem claim_C2_oversized_handling_witness :
    ("userdata" ++ "/" ++ "huge.bin") ∉
        (make_build true ⟨[], [⟨"userdata", [⟨"huge.bin", some 15⟩]⟩]⟩ 10
          true none).included ∧
    (true = true →
      ("userdata" ++ "/" ++ "huge.bin", 15) ∈
        (make_build true ⟨[], [⟨"userdata", [⟨"huge.bin", some 15⟩]⟩]⟩ 10
          true none).oversizedLogged) ∧
    (true = false →
      (make_build true ⟨[], [⟨"userdata", [⟨"huge.bin", some 15⟩]⟩]⟩ 10
        true none).oversizedLogged = []) :=
  claim_C2_oversized_handling
    ⟨[], [⟨"userdata", [⟨"huge.bin", some 15⟩]⟩]⟩ 10 true
    ⟨"userdata", [⟨"huge.bin", some 15⟩]⟩ ⟨"huge.bin", some 15⟩ 15
    (by decide) (by decide) (by decide) (by decide) (by decide)
    (by decide) (by decide) (by decide)

/-- C3 counterexample: when an exception is raised during the walk and
write phase of a normal run, the partial zip is deleted as claimed, but the
failure is not surfaced to the caller: the exception is swallowed and the
process exits with code 0, refuting the conjunction. -/
theorem claim_C3_counterexample :
    ¬ ( (make_build true ⟨[], [⟨"userdata", [⟨"a.txt", some 1⟩]⟩]⟩ 0 false
          (some 0)).zipOnDisk = false ∧
        ( (make_build true ⟨[], [⟨"userdata", [⟨"a.txt", some 1⟩]⟩]⟩ 0 false
            (some 0)).excToCaller = true ∨
          (make_build true ⟨[], [⟨"userdata", [⟨"a.txt", some 1⟩]⟩]⟩ 0 false
            (some 0)).exitCode ≠ 0 ) ) := by decide

/-- C3 amended: when writing the archive fails partway through a normal
run, the partially written archive is deleted and an error message is
printed, but the exception is swallowed inside make_build: nothing
propagates to the caller and the process exit code is 0. -/
theorem claim_C3_write_failure_cleanup (t : KodiTree) (skip_large : Int)
    (n : Nat) :
    (make_build true t skip_large false (some n)).zipOnDisk = false ∧
    (make_build true t skip_large false (some n)).errorPrinted = true ∧
    (make_build true t skip_large false (some n)).excToCaller = false ∧
    (make_build true t skip_large false (some n)).exitCode = 0 :=
  ⟨rfl, rfl, rfl, rfl⟩

/-- C4: pruning at the root is absolute: the entire outcome of the run
depends only on the kept top-level directories, so files under a top-level
directory not named in dirs_to_keep, and files directly at the root, are
never evaluated against exclusion patterns or the size ceiling and never
reach any output, whatever the rules say. -/
theorem claim_C4_pruning_absolute (kodiIsDir : Bool) (skip_large : Int)
    (dry_run : Bool) (failAt : Option Nat) (rf1 rf2 : List FSFile)
    (ds1 ds2 : List TopDir)
    (h : ds1.filter (fun d => dirs_to_keep.contains d.name) =
         ds2.filter (fun d => dirs_to_keep.contains d.name)) :
    make_build kodiIsDir ⟨rf1, ds1⟩ skip_large dry_run failAt =
      make_build kodiIsDir ⟨rf2, ds2⟩ skip_large dry_run failAt := by
  have hw := walkEntries_congr rf1 rf2 ds1 ds2 h
  cases kodiIsDir with
  | false => rfl
  | true =>
    cases failAt with
    | some n =>
      rw [make_build_some_eq, make_build_some_eq, hw]
    | none =>
      rw [make_build_none_eq, make_build_none_eq,
        make_build_core_eq, make_build_core_eq, hw]

/-- C4 witness: a tree with a root file and a cache top-level directory
produces the same outcome as the tree without them. -/
theorem claim_C4_pruning_absolute_witness :
    ([⟨"cache", [⟨"x.bin", some 5⟩]⟩, ⟨"userdata", [⟨"s.xml", some 3⟩]⟩]
        : List TopDir).filter (fun d => dirs_to_keep.contains d.name) =
      ([⟨"userdata", [⟨"s.xml", some 3⟩]⟩]
        : List TopDir).filter (fun d => dirs_to_keep.contains d.name) ∧
    make_build true
        ⟨[⟨"kodi.log", some 1⟩],
          [⟨"cache", [⟨"x.bin", some 5⟩]⟩, ⟨"userdata", [⟨"s.xml", some 3⟩]⟩]⟩
        0 false none =
      make_build true ⟨[], [⟨"userdata", [⟨"s.xml", some 3⟩]⟩]⟩ 0 false none :=
  ⟨by decide,
   claim_C4_pruning_absolute true 0 false none
     [⟨"kodi.log", some 1⟩] []
     [⟨"cache", [⟨"x.bin", some 5⟩]⟩, ⟨"userdata", [⟨"s.xml", some 3⟩]⟩]
     [⟨"userdata", [⟨"s.xml", some 3⟩]⟩] (by decide)⟩

/-- C5: a relative path matching some exclusion pattern never appears in
the inclusion result of any run, kept top-level directory and size
notwithstanding, and also on runs interrupted by a write failure. -/
theorem claim_C5_excluded_never_included (t : KodiTree) (skip_large : Int)
    (dry_run : Bool) (failAt : Option Nat) (rel : String)
    (h : should_exclude rel = true) :
    rel ∉ (make_build true t skip_large dry_run failAt).included := by
  intro hmem
  have hx : should_exclude rel = false := by
    cases failAt with
    | some n =>
      exact included_not_excluded skip_large dry_run
        ((walkEntries t).take n) rel hmem
    | none =>
      refine included_not_excluded skip_large dry_run (walkEntries t) rel ?_
      rw [← make_build_core_eq]
      exact hmem
  rw [h] at hx
  exact Bool.noConfusion hx

/-- C5 witness: the Thumbnails pattern excludes a concrete file that would
otherwise be included. -/
theorem claim_C5_excluded_never_included_witness :
    should_exclude "userdata/Thumbnails/a.jpg" = true ∧
    "userdata/Thumbnails/a.jpg" ∉
      (make_build true
        ⟨[], [⟨"userdata", [⟨"Thumbnails/a.jpg", some 3⟩]⟩]⟩
        0 false none).included :=
  ⟨by decide,
   claim_C5_excluded_never_included
     ⟨[], [⟨"userdata", [⟨"Thumbnails/a.jpg", some 3⟩]⟩]⟩
     0 false none "userdata/Thumbnails/a.jpg" (by decide)⟩

/-- C6: when the source root is not an existing directory the run exits
with code 1 before creating anything: no output directory, no archive on
disk, and an empty inclusion result. -/
theorem claim_C6_path_not_found (t : KodiTree) (skip_large : Int)
    (dry_run : Bool) (failAt : Option Nat) :
    (make_build false t skip_large dry_run failAt).exitCode = 1 ∧
    (make_build false t skip_large dry_run failAt).outDirCreated = false ∧
    (make_build false t skip_large dry_run failAt).zipOnDisk = false ∧
    (make_build false t skip_large dry_run failAt).included = [] :=
  ⟨rfl, rfl, rfl, rfl⟩

/-- C7: with skip_large set to 0 the ceiling is disabled: no file is
skipped for size (the oversized report stays empty) and a statable file is
included exactly when it lies under a kept top-level directory and matches
no exclusion pattern. -/
theorem claim_C7_zero_ceiling (t : KodiTree) (dry_run : Bool) :
    (∀ rel, rel ∈ (make_build true t 0 dry_run none).included ↔
      ∃ d, d ∈ t.dirs ∧ dirs_to_keep.contains d.name = true ∧
        ∃ f, f ∈ d.files ∧ rel = d.name ++ "/" ++ f.path ∧
          should_exclude rel = false ∧ ∃ sz, f.size = some sz) ∧
    (make_build true t 0 dry_run none).oversizedLogged = [] :=
  ⟨fun rel => included_no_ceiling 0 dry_run t le_rfl rel,
   oversized_empty_of_nonpos 0 dry_run t le_rfl⟩

/-- C8: a preview (dry run) performs the identical selection: the list of
included relative paths equals that of a normal run on the same tree and
rules, while no archive file is created and nothing is written. -/
theorem claim_C8_preview_equivalence (t : KodiTree) (skip_large : Int) :
    (make_build true t skip_large true none).included =
      (make_build true t skip_large false none).included ∧
    (make_build true t skip_large true none).zipOnDisk = false ∧
    (make_build true t skip_large true none).archived = [] := by
  refine ⟨?_, rfl, ?_⟩
  · show (make_build_core skip_large true t).included =
      (make_build_core skip_large false t).included
    rw [make_build_core_eq, make_build_core_eq, runEntries_eq, runEntries_eq]
  · show (make_build_core skip_large true t).archived = []
    rw [make_build_core_eq, runEntries_eq]
    simp only [List.nil_append]
    exact flatMap_nil_of _ _ (fun e => arOf_eq_nil_of_dry skip_large e)

/-- C9: a file whose stat fails contributes nothing to any accumulator and
does not abort the walk: removing it from the tree leaves the whole
outcome unchanged, so every other file is treated identically. -/
theorem claim_C9_unstatable_dropped (skip_large : Int) (dry_run : Bool)
    (rf : List FSFile) (pre post : List TopDir) (dn p : String)
    (xs ys : List FSFile) :
    make_build true ⟨rf, pre ++ ⟨dn, xs ++ ⟨p, none⟩ :: ys⟩ :: post⟩
        skip_large dry_run none =
      make_build true ⟨rf, pre ++ ⟨dn, xs ++ ys⟩ :: post⟩
        skip_large dry_run none := by
  have hcore : make_build_core skip_large dry_run
      ⟨rf, pre ++ ⟨dn, xs ++ ⟨p, none⟩ :: ys⟩ :: post⟩ =
    make_build_core skip_large dry_run ⟨rf, pre ++ ⟨dn, xs ++ ys⟩ :: post⟩ := by
    rw [make_build_core_eq, make_build_core_eq]
    unfold walkEntries
    by_cases hk : dn ∈ dirs_to_keep
    · simp [List.filter_append, List.filter_cons, hk, List.flatMap_append,
        List.flatMap_cons, List.map_append, List.map_cons,
        runEntries_append, runEntries_cons_none]
    · simp [List.filter_append, List.filter_cons, hk]
  rw [make_build_none_eq, make_build_none_eq, hcore]

/-- C10: any non-positive skip_large value, not only 0, disables the
ceiling: the oversized report stays empty and a statable file is included
exactly when it lies under a kept top-level directory and matches no
exclusion pattern. -/
theorem claim_C10_nonpos_ceiling (skip_large : Int) (t : KodiTree)
    (dry_run : Bool) (h : skip_large ≤ 0) :
    (∀ rel, rel ∈ (make_build true t skip_large dry_run none).included ↔
      ∃ d, d ∈ t.dirs ∧ dirs_to_keep.contains d.name = true ∧
        ∃ f, f ∈ d.files ∧ rel = d.name ++ "/" ++ f.path ∧
          should_exclude rel = false ∧ ∃ sz, f.size = some sz) ∧
    (make_build true t skip_large dry_run none).oversizedLogged = [] :=
  ⟨fun rel => included_no_ceiling skip_large dry_run t h rel,
   oversized_empty_of_nonpos skip_large dry_run t h⟩

/-- C10 witness: with skip_large set to -5 a 1000-byte file is included and
nothing is reported oversized. -/
theorem claim_C10_nonpos_ceiling_witness :
    (-5 : Int) ≤ 0 ∧
    ("userdata" ++ "/" ++ "big.bin") ∈
      (make_build true ⟨[], [⟨"userdata", [⟨"big.bin", some 1000⟩]⟩]⟩ (-5)
        false none).included ∧
    (make_build true ⟨[], [⟨"userdata", [⟨"big.bin", some 1000⟩]⟩]⟩ (-5)
      false none).oversizedLogged = [] :=
  ⟨by decide,
   ((claim_C10_nonpos_ceiling (-5)
       ⟨[], [⟨"userdata", [⟨"big.bin", some 1000⟩]⟩]⟩ false (by decide)).1
     ("userdata" ++ "/" ++ "big.bin")).mpr
     ⟨⟨"userdata", [⟨"big.bin", some 1000⟩]⟩, by decide, by decide,
      ⟨"big.bin", some 1000⟩, by decide, rfl, by decide, 1000, rfl⟩,
   (claim_C10_nonpos_ceiling (-5)
       ⟨[], [⟨"userdata", [⟨"big.bin", some 1000⟩]⟩]⟩ false (by decide)).2⟩

end KodiBuild
